import Mathlib

/-!
Shallow embedding of the starspot photometric model in `libra/starspots/star.py`
(classes `Spot` and `Star`, function `latlon_to_cartesian`), over exact real
arithmetic.  Points are triples `ℝ × ℝ × ℝ`; angles are radians; the
`numpy`/`astropy` rotation matrices are embedded with astropy's sign
convention (`rotation_matrix` produces frame-rotation matrices).  `np.sqrt`
of a negative argument yields NaN in the source; that fallible evaluation is
modelled by `Option ℝ`, with `none` standing for NaN.
-/

open Real

namespace Libra

/-- A point in the Cartesian sky frame: x equatorial, y rotation axis,
z toward the observer (the `CartesianRepresentation` of the source). -/
abbrev Point := ℝ × ℝ × ℝ

/-- `np.sqrt`: defined for nonnegative arguments; a negative argument
produces NaN, modelled as `none`. -/
noncomputable def np_sqrt (t : ℝ) : Option ℝ :=
  if t < 0 then none else some (Real.sqrt t)

/-- `astropy.coordinates.matrix_utilities.rotation_matrix(θ, axis='y')`
applied to a point: `((cos θ, 0, -sin θ), (0, 1, 0), (sin θ, 0, cos θ)) @ p`. -/
noncomputable def rotYmat (θ : ℝ) (p : Point) : Point :=
  (Real.cos θ * p.1 - Real.sin θ * p.2.2, p.2.1,
   Real.sin θ * p.1 + Real.cos θ * p.2.2)

/-- `rotation_matrix(θ, axis='z')` applied to a point:
`((cos θ, sin θ, 0), (-sin θ, cos θ, 0), (0, 0, 1)) @ p`. -/
noncomputable def rotZmat (θ : ℝ) (p : Point) : Point :=
  (Real.cos θ * p.1 + Real.sin θ * p.2.1,
   -Real.sin θ * p.1 + Real.cos θ * p.2.1, p.2.2)

/-- `UnitSphericalRepresentation(longitude, latitude).to_cartesian()`:
`(cos lat cos lon, cos lat sin lon, sin lat)`. -/
noncomputable def unitSpherical (lon lat : ℝ) : Point :=
  (Real.cos lat * Real.cos lon, Real.cos lat * Real.sin lon, Real.sin lat)

/-- `latlon_to_cartesian(latitude, longitude, stellar_inclination)`:
the product matrix `matrix_product(rotation_matrix(90°, 'z'),
rotation_matrix(inclination, 'y'))` applied once to the unit spherical
direction of `(longitude, latitude)`. -/
noncomputable def latlon_to_cartesian (latitude longitude incl : ℝ) : Point :=
  rotZmat (Real.pi / 2) (rotYmat incl (unitSpherical longitude latitude))

/-- `Spot`: Cartesian position plus radius, all in stellar radii. -/
structure Spot where
  x : ℝ
  y : ℝ
  z : ℝ
  r : ℝ

/-- `Spot.__init__` with `z` given explicitly: stores the coordinates as is. -/
def Spot.ofXYZ (x y z r : ℝ) : Spot := ⟨x, y, z, r⟩

/-- `Spot.__init__` with `z` omitted: `z = np.sqrt(stellar_radius^2 - x^2 - y^2)`.
The NaN of an out-of-domain square root is propagated as `none`. -/
noncomputable def Spot.ofXY (x y r R : ℝ) : Option Spot :=
  (np_sqrt (R ^ 2 - x ^ 2 - y ^ 2)).map fun z => ⟨x, y, z, r⟩

/-- `Spot.from_latlon(latitude, longitude, radius)`: position from
`latlon_to_cartesian` at the default inclination of 90 degrees. -/
noncomputable def Spot.from_latlon (latitude longitude radius : ℝ) : Spot :=
  let c := latlon_to_cartesian latitude longitude (Real.pi / 2)
  ⟨c.1, c.2.1, c.2.2, radius⟩

/-- `Spot.from_sunspot_distribution`, with the externally drawn latitude,
longitude and radius passed in explicitly (the sampler is an external
collaborator): same geometry as `from_latlon`, radius scaled by the
multiplier. -/
noncomputable def Spot.from_sunspot_sample (lat lon radius radius_multiplier : ℝ) :
    Spot :=
  let c := latlon_to_cartesian lat lon (Real.pi / 2)
  ⟨c.1, c.2.1, c.2.2, radius * radius_multiplier⟩

/-- Quadratic limb-darkening law `Star.limb_darkening` as a function of the
coefficients: `(1 - u1 (1-μ) - u2 (1-μ)^2) / (1 - u1/3 - u2/6) / π`
with `μ = sqrt(1 - r^2)`. -/
noncomputable def limb_darkening (u1 u2 r : ℝ) : ℝ :=
  let mu := Real.sqrt (1 - r ^ 2)
  (1 - u1 * (1 - mu) - u2 * (1 - mu) ^ 2) / (1 - u1 / 3 - u2 / 6) / Real.pi

/-- `Star.limb_darkening_normed`: the law divided by its central value. -/
noncomputable def limb_darkening_normed (u1 u2 r : ℝ) : ℝ :=
  limb_darkening u1 u2 r / limb_darkening u1 u2 0

/-- `Star`: spot list, working Cartesian array and radii array, limb
darkening coefficients, stellar radius, unused centroid threshold,
accumulated rotation, rotation period (value in days), inclination,
contrast and precomputed unspotted flux.  The unused photocenter
accumulators `self.x = 0`, `self.y = 0` are carried along as `cx`, `cy`. -/
structure Star where
  spots : List Spot
  spots_cartesian : List Point
  spots_r : List ℝ
  cx : ℝ
  cy : ℝ
  u1 : ℝ
  u2 : ℝ
  r : ℝ
  radius_threshold : ℝ
  rotations_applied : ℝ
  rotation_period : ℝ
  inclination : ℝ
  contrast : ℝ
  unspotted_flux : ℝ

/-- `Star.__init__`: derives the working arrays from the spot list, zeroes
the rotation accumulator, fixes inclination at 90 degrees and precomputes
`unspotted_flux = 2π ∫_0^r t · I_norm(t) dt` (the source evaluates this
integral by `scipy.integrate.quad`). -/
noncomputable def Star.init (spots : List Spot) (u1 u2 r radius_threshold
    rotation_period contrast : ℝ) : Star :=
  { spots := spots
    spots_cartesian := spots.map fun s => (s.x, s.y, s.z)
    spots_r := spots.map Spot.r
    cx := 0
    cy := 0
    u1 := u1
    u2 := u2
    r := r
    radius_threshold := radius_threshold
    rotations_applied := 0
    rotation_period := rotation_period
    inclination := Real.pi / 2
    contrast := contrast
    unspotted_flux :=
      2 * Real.pi * ∫ t in (0 : ℝ)..r, t * limb_darkening_normed u1 u2 t }

/-- `Star.rotate(angle)`: transforms the working Cartesian array by
`rotation_matrix(angle, 'y')` and accumulates the angle.  The spot list,
radii array and every other field are untouched. -/
noncomputable def Star.rotate (s : Star) (angle : ℝ) : Star :=
  { s with
    spots_cartesian := s.spots_cartesian.map (rotYmat angle)
    rotations_applied := s.rotations_applied + angle }

/-- `Star.derotate()`: rotate by the negated accumulator, then reset it. -/
noncomputable def Star.derotate (s : Star) : Star :=
  { s.rotate (-s.rotations_applied) with rotations_applied := 0 }

/-- The flux deficit of a single spot in `Star._instantaneous_flux`: zero
for a far-side spot (`z ≤ 0`, excluded by the `visible` mask); otherwise
`-(π spot_r^2 sqrt(1 - (r_proj/R)^2)) · I_norm(r_proj) · (1 - contrast)`
with `r_proj = sqrt(x^2 + y^2)`. -/
noncomputable def spotDeficit (u1 u2 R contrast : ℝ) (p : Point) (sr : ℝ) : ℝ :=
  if 0 < p.2.2 then
    -(Real.pi * sr ^ 2 * Real.sqrt (1 - (Real.sqrt (p.1 ^ 2 + p.2.1 ^ 2) / R) ^ 2)) *
      limb_darkening_normed u1 u2 (Real.sqrt (p.1 ^ 2 + p.2.1 ^ 2)) * (1 - contrast)
  else 0

/-- `Star._instantaneous_flux`: `unspotted_flux` plus the summed deficits of
the visible spots (the source filters on `z > 0`; summing a zero term for
each far-side spot is the same sum). -/
noncomputable def Star.instantaneous_flux (s : Star) : ℝ :=
  s.unspotted_flux +
    ((s.spots_cartesian.zip s.spots_r).map fun pr =>
      spotDeficit s.u1 s.u2 s.r s.contrast pr.1 pr.2).sum

/-- Python float `%`: `x % P = x - P * floor(x / P)`. -/
noncomputable def pythonMod (x P : ℝ) : ℝ := x - P * ⌊x / P⌋

/-- The rotational phase of sample `t` in `Star.flux`:
`((t - t0) % P) / P * 2π`. -/
noncomputable def rotationalPhase (P t0 t : ℝ) : ℝ :=
  pythonMod (t - t0) P / P * (2 * Real.pi)

/-- The loop body of `Star.flux`: walk the times in the given order,
rotate by the increment from the previous sample's phase, record the
instantaneous flux, advance the previous-phase tracker.  Returns the
recorded fluxes together with the mutated star. -/
noncomputable def fluxLoop (P t0 : ℝ) : Star → ℝ → List ℝ → List ℝ × Star
  | s, _, [] => ([], s)
  | s, prev, t :: ts =>
    let phase := rotationalPhase P t0 t
    let s' := s.rotate (phase - prev)
    let rest := fluxLoop P t0 s' phase ts
    (s'.instantaneous_flux :: rest.1, rest.2)

/-- `Star.flux(times, t0)` with `times` present: run the loop starting from
`prev_rot = 0`, then derotate.  Returns the flux array and the star as the
mutation leaves it. -/
noncomputable def Star.flux (s : Star) (times : List ℝ) (t0 : ℝ) :
    List ℝ × Star :=
  let res := fluxLoop s.rotation_period t0 s 0 times
  (res.1, res.2.derotate)

/-- The method `Star.limb_darkening`: the quadratic law with the star's own
coefficients. -/
noncomputable def Star.limb_darkening (s : Star) (x : ℝ) : ℝ :=
  Libra.limb_darkening s.u1 s.u2 x

/-- The method `Star.limb_darkening_normed`: the normalized law with the
star's own coefficients. -/
noncomputable def Star.limb_darkening_normed (s : Star) (x : ℝ) : ℝ :=
  Libra.limb_darkening_normed s.u1 s.u2 x

/-- The value of the `prev_rot` tracker after the `Star.flux` loop has walked
the whole list: the phase of the last sample, or the initial value for an
empty list. -/
noncomputable def lastPhase (P t0 : ℝ) : ℝ → List ℝ → ℝ
  | prev, [] => prev
  | _, t :: ts => lastPhase P t0 (rotationalPhase P t0 t) ts

/-! ### Rotation lemmas -/

/-- Rotating about Y by 0 is the identity on points. -/
theorem rotYmat_zero (p : Point) : rotYmat 0 p = p := by
  simp [rotYmat]

/-- Successive Y-rotations compose additively. -/
theorem rotYmat_rotYmat (a b : ℝ) (p : Point) :
    rotYmat a (rotYmat b p) = rotYmat (a + b) p := by
  obtain ⟨x, y, z⟩ := p
  simp only [rotYmat, Real.cos_add, Real.sin_add, Prod.mk.injEq]
  refine ⟨by ring, trivial, by ring⟩

/-- Y-rotations preserve the squared norm. -/
theorem rotYmat_sq_norm (a : ℝ) (p : Point) :
    (rotYmat a p).1 ^ 2 + (rotYmat a p).2.1 ^ 2 + (rotYmat a p).2.2 ^ 2 =
      p.1 ^ 2 + p.2.1 ^ 2 + p.2.2 ^ 2 := by
  obtain ⟨x, y, z⟩ := p
  simp only [rotYmat]
  have h := Real.sin_sq_add_cos_sq a
  nlinarith [h]

/-- Z-rotations preserve the squared norm. -/
theorem rotZmat_sq_norm (a : ℝ) (p : Point) :
    (rotZmat a p).1 ^ 2 + (rotZmat a p).2.1 ^ 2 + (rotZmat a p).2.2 ^ 2 =
      p.1 ^ 2 + p.2.1 ^ 2 + p.2.2 ^ 2 := by
  obtain ⟨x, y, z⟩ := p
  simp only [rotZmat]
  have h := Real.sin_sq_add_cos_sq a
  nlinarith [h]

/-- The unit spherical direction has squared norm 1. -/
theorem unitSpherical_sq_norm (lon lat : ℝ) :
    (unitSpherical lon lat).1 ^ 2 + (unitSpherical lon lat).2.1 ^ 2 +
      (unitSpherical lon lat).2.2 ^ 2 = 1 := by
  simp only [unitSpherical]
  have h1 := Real.sin_sq_add_cos_sq lon
  have h2 := Real.sin_sq_add_cos_sq lat
  nlinarith [h1, h2]

/-! ### Star state lemmas -/

/-- `rotate 0` leaves the star unchanged. -/
theorem Star.rotate_zero (s : Star) : s.rotate 0 = s := by
  simp only [Star.rotate]
  have h : s.spots_cartesian.map (rotYmat 0) = s.spots_cartesian := by
    induction s.spots_cartesian with
    | nil => rfl
    | cons p ps ih => simp [rotYmat_zero, ih]
  cases s
  simp_all

/-- Two rotations collapse into one by the summed angle. -/
theorem Star.rotate_rotate (s : Star) (a b : ℝ) :
    (s.rotate a).rotate b = s.rotate (a + b) := by
  simp only [Star.rotate, List.map_map]
  have h : (rotYmat b ∘ rotYmat a) = rotYmat (a + b) := by
    funext p
    simp [Function.comp, rotYmat_rotYmat, add_comm]
  rw [h]
  congr 1
  ring

/-- Fields other than the working array and the accumulator are untouched
by `rotate`. -/
theorem Star.rotate_fields (s : Star) (a : ℝ) :
    (s.rotate a).spots = s.spots ∧ (s.rotate a).spots_r = s.spots_r ∧
    (s.rotate a).u1 = s.u1 ∧ (s.rotate a).u2 = s.u2 ∧
    (s.rotate a).r = s.r ∧ (s.rotate a).radius_threshold = s.radius_threshold ∧
    (s.rotate a).rotation_period = s.rotation_period ∧
    (s.rotate a).contrast = s.contrast ∧
    (s.rotate a).unspotted_flux = s.unspotted_flux ∧
    (s.rotate a).inclination = s.inclination ∧
    (s.rotate a).cx = s.cx ∧ (s.rotate a).cy = s.cy := by
  simp [Star.rotate]

/-- Composition of Y-rotations as functions. -/
theorem rotYmat_comp (a b : ℝ) : rotYmat a ∘ rotYmat b = rotYmat (a + b) := by
  funext p
  rw [Function.comp_apply, rotYmat_rotYmat]

/-- Mapping a zero Y-rotation over a list is the identity. -/
theorem map_rotYmat_zero (l : List Point) : l.map (rotYmat 0) = l := by
  induction l with
  | nil => rfl
  | cons p ps ih => simp [rotYmat_zero, ih]

/-- Mapping two Y-rotations over a list collapses to the summed angle. -/
theorem map_rotYmat_map (a b : ℝ) (l : List Point) :
    (l.map (rotYmat b)).map (rotYmat a) = l.map (rotYmat (a + b)) := by
  rw [List.map_map, rotYmat_comp]

/-- `derotate` rewinds the working array by the accumulated angle and zeroes
the accumulator, leaving all other fields unchanged. -/
theorem Star.derotate_eq (s : Star) :
    s.derotate = { s with
      spots_cartesian := s.spots_cartesian.map (rotYmat (-s.rotations_applied))
      rotations_applied := 0 } := by
  simp [Star.derotate, Star.rotate]

/-- A left fold of `rotate` over a list of angles is a single rotation by
their sum. -/
theorem Star.foldl_rotate (as : List ℝ) : ∀ s : Star,
    as.foldl Star.rotate s = s.rotate as.sum := by
  induction as with
  | nil => intro s; simp [Star.rotate_zero]
  | cons a as ih =>
    intro s
    rw [List.foldl_cons, List.sum_cons, ih, Star.rotate_rotate]

/-- The flux list produced by the loop: each sample's flux is the flux of the
entry star advanced by the phase increment from the tracker to that sample's
target phase. -/
theorem fluxLoop_fst (P t0 : ℝ) : ∀ (ts : List ℝ) (s : Star) (prev : ℝ),
    (fluxLoop P t0 s prev ts).1 =
      ts.map fun t =>
        (s.rotate (rotationalPhase P t0 t - prev)).instantaneous_flux := by
  intro ts
  induction ts with
  | nil => intro s prev; rfl
  | cons t ts ih =>
    intro s prev
    simp only [fluxLoop, List.map_cons, List.cons.injEq]
    refine ⟨trivial, ?_⟩
    rw [ih]
    apply List.map_congr_left
    intro t' _
    rw [Star.rotate_rotate]
    congr 1
    ring_nf

/-- The star produced by the loop: the entry star rotated from the tracker
value to the last sample's phase. -/
theorem fluxLoop_snd (P t0 : ℝ) : ∀ (ts : List ℝ) (s : Star) (prev : ℝ),
    (fluxLoop P t0 s prev ts).2 = s.rotate (lastPhase P t0 prev ts - prev) := by
  intro ts
  induction ts with
  | nil => intro s prev; simp [fluxLoop, lastPhase, Star.rotate_zero]
  | cons t ts ih =>
    intro s prev
    simp only [fluxLoop, lastPhase]
    rw [ih, Star.rotate_rotate]
    congr 1
    ring

/-- `flux` records, for each `t` in order, the instantaneous flux of the star
advanced to the rotational phase of `t`. -/
theorem Star.flux_fst (s : Star) (times : List ℝ) (t0 : ℝ) :
    (s.flux times t0).1 =
      times.map fun t =>
        (s.rotate (rotationalPhase s.rotation_period t0 t)).instantaneous_flux := by
  simp only [Star.flux, fluxLoop_fst]
  apply List.map_congr_left
  intro t _
  rw [sub_zero]

/-- The star `flux` leaves behind: working array rewound by the angle that
was accumulated at entry, accumulator zeroed, everything else as it was. -/
theorem Star.flux_snd (s : Star) (times : List ℝ) (t0 : ℝ) :
    (s.flux times t0).2 = { s with
      spots_cartesian := s.spots_cartesian.map (rotYmat (-s.rotations_applied))
      rotations_applied := 0 } := by
  simp only [Star.flux, fluxLoop_snd, Star.derotate_eq, Star.rotate,
    map_rotYmat_map]
  congr 2
  ring_nf

/-- A star whose accumulator is zero is returned to exactly its entry state
by `flux`. -/
theorem Star.flux_snd_of_zero (s : Star) (times : List ℝ) (t0 : ℝ)
    (h : s.rotations_applied = 0) : (s.flux times t0).2 = s := by
  rw [Star.flux_snd, h]
  cases s
  simp_all [map_rotYmat_zero]

/-- At `t = t0` the rotational phase is zero. -/
theorem rotationalPhase_self (P t0 : ℝ) : rotationalPhase P t0 t0 = 0 := by
  simp [rotationalPhase, pythonMod]

/-- The quadratic law at disk center: `μ = 1`, so the intensity is
`1 / (1 - u1/3 - u2/6) / π`. -/
theorem limb_darkening_zero (u1 u2 : ℝ) :
    limb_darkening u1 u2 0 = 1 / (1 - u1 / 3 - u2 / 6) / Real.pi := by
  simp [limb_darkening]

/-- The central intensity is nonzero whenever the normalization denominator
is nonzero. -/
theorem limb_darkening_zero_ne (u1 u2 : ℝ) (h : 1 - u1 / 3 - u2 / 6 ≠ 0) :
    limb_darkening u1 u2 0 ≠ 0 := by
  rw [limb_darkening_zero]
  exact div_ne_zero (div_ne_zero one_ne_zero h) Real.pi_ne_zero

/-- The normalized law has central intensity exactly 1 whenever the
normalization denominator is nonzero. -/
theorem limb_darkening_normed_zero (u1 u2 : ℝ) (h : 1 - u1 / 3 - u2 / 6 ≠ 0) :
    limb_darkening_normed u1 u2 0 = 1 :=
  div_self (limb_darkening_zero_ne u1 u2 h)

/-- `latlon_to_cartesian` always lands on the unit sphere. -/
theorem latlon_sq_norm (lat lon incl : ℝ) :
    (latlon_to_cartesian lat lon incl).1 ^ 2 +
      (latlon_to_cartesian lat lon incl).2.1 ^ 2 +
      (latlon_to_cartesian lat lon incl).2.2 ^ 2 = 1 := by
  rw [latlon_to_cartesian, rotZmat_sq_norm, rotYmat_sq_norm,
    unitSpherical_sq_norm]

/-! ### Claims -/

/-- C2: for every constructed Star and every finite sequence of
`rotate(angle_i)` calls performed since construction, a single `derotate()`
resets `rotations_applied` to exactly zero and restores `spots_cartesian`
to the construction-time spot geometry. -/
theorem C2_derotate_restores (spots : List Spot)
    (u1 u2 r rt P c : ℝ) (angles : List ℝ) :
    ((angles.foldl Star.rotate
        (Star.init spots u1 u2 r rt P c)).derotate).rotations_applied = 0 ∧
    ((angles.foldl Star.rotate
        (Star.init spots u1 u2 r rt P c)).derotate).spots_cartesian =
      (Star.init spots u1 u2 r rt P c).spots_cartesian := by
  rw [Star.foldl_rotate, Star.derotate_eq]
  refine ⟨rfl, ?_⟩
  show ((Star.init spots u1 u2 r rt P c).spots_cartesian.map
      (rotYmat angles.sum)).map _ = _
  rw [map_rotYmat_map]
  have h : -((Star.init spots u1 u2 r rt P c).rotate
      angles.sum).rotations_applied + angles.sum = 0 := by
    show -((0 : ℝ) + angles.sum) + angles.sum = 0
    ring
  rw [h, map_rotYmat_zero]

/-- C5: `flux(times, t0)` computes each sample's rotational phase as
`((t - t0) mod P) / P * 2π` with `P` the rotation period (in the shared
time unit), and rotates by the incremental angle from the previous sample's
phase, so each step advances the geometry exactly to the target phase in
list order: the i-th recorded flux is the flux of the entry star advanced
by exactly the i-th target phase. -/
theorem C5_incremental_phase (s : Star) (times : List ℝ) (t0 : ℝ) :
    (∀ t, rotationalPhase s.rotation_period t0 t =
      (t - t0 - s.rotation_period * ⌊(t - t0) / s.rotation_period⌋) /
        s.rotation_period * (2 * Real.pi)) ∧
    (s.flux times t0).1 =
      times.map fun t =>
        (s.rotate (rotationalPhase s.rotation_period t0 t)).instantaneous_flux :=
  ⟨fun _ => rfl, Star.flux_fst s times t0⟩

/-- C6: the coordinate transform maps `(longitude, latitude)` to a unit
spherical direction, then applies the single composed transform built from
the fixed 90-degree rotation about the sky-plane normal (z) axis and the
rotation about the Y axis by the stellar inclination, once, to that unit
vector; the result stays on the unit sphere. -/
theorem C6_latlon_transform (lat lon incl : ℝ) :
    latlon_to_cartesian lat lon incl =
      (rotZmat (Real.pi / 2) ∘ rotYmat incl) (unitSpherical lon lat) ∧
    (unitSpherical lon lat).1 ^ 2 + (unitSpherical lon lat).2.1 ^ 2 +
      (unitSpherical lon lat).2.2 ^ 2 = 1 ∧
    (latlon_to_cartesian lat lon incl).1 ^ 2 +
      (latlon_to_cartesian lat lon incl).2.1 ^ 2 +
      (latlon_to_cartesian lat lon incl).2.2 ^ 2 = 1 :=
  ⟨rfl, unitSpherical_sq_norm lon lat, latlon_sq_norm lat lon incl⟩

/-- C9: constructing a Spot with `z` omitted and `x^2 + y^2 > R^2` produces
a NaN `z` (modelled as `none`) rather than raising an error: the domain
violation is surfaced to the caller. -/
theorem C9_out_of_domain_nan (x y r R : ℝ) (h : R ^ 2 < x ^ 2 + y ^ 2) :
    Spot.ofXY x y r R = none := by
  rw [Spot.ofXY, np_sqrt, if_pos (by linarith)]
  rfl

/-- C9 witness: the spot at `x = 2, y = 0` on the unit star. -/
theorem C9_witness :
    (1 : ℝ) ^ 2 < 2 ^ 2 + 0 ^ 2 ∧ Spot.ofXY 2 0 (1/10) 1 = none :=
  ⟨by norm_num, C9_out_of_domain_nan 2 0 (1/10) 1 (by norm_num)⟩

/-- C10: `rotate(angle)` — and `derotate()` and the star left behind by
`flux(times, t0)`, which call it — never mutates the owned Spot objects or
the `spots_r` array: only `spots_cartesian` and `rotations_applied`
change. -/
theorem C10_rotate_frame (s : Star) (θ t0 : ℝ) (times : List ℝ) :
    ((s.rotate θ).spots = s.spots ∧ (s.rotate θ).spots_r = s.spots_r ∧
     (s.rotate θ).u1 = s.u1 ∧ (s.rotate θ).u2 = s.u2 ∧
     (s.rotate θ).r = s.r ∧
     (s.rotate θ).radius_threshold = s.radius_threshold ∧
     (s.rotate θ).rotation_period = s.rotation_period ∧
     (s.rotate θ).contrast = s.contrast ∧
     (s.rotate θ).unspotted_flux = s.unspotted_flux ∧
     (s.rotate θ).inclination = s.inclination) ∧
    (s.derotate.spots = s.spots ∧ s.derotate.spots_r = s.spots_r) ∧
    (((s.flux times t0).2).spots = s.spots ∧
     ((s.flux times t0).2).spots_r = s.spots_r) := by
  refine ⟨?_, ?_, ?_⟩
  · simp [Star.rotate]
  · rw [Star.derotate_eq]
    exact ⟨rfl, rfl⟩
  · rw [Star.flux_snd]
    exact ⟨rfl, rfl⟩

/-- C4: a spot with `z ≤ 0` contributes zero deficit; a spot with `z > 0`
contributes the foreshortened deficit (resuming once `z` is positive
again); a star none of whose working positions has `z > 0` has
instantaneous flux exactly `unspotted_flux`; and a star with zero spots
has every entry of `flux(times)` equal to `unspotted_flux`. -/
theorem C4_far_side_contributes_nothing (s : Star) :
    ((∀ pr ∈ s.spots_cartesian.zip s.spots_r, pr.1.2.2 ≤ 0) →
      s.instantaneous_flux = s.unspotted_flux) ∧
    (∀ (p : Point) (sr : ℝ), p.2.2 ≤ 0 →
      spotDeficit s.u1 s.u2 s.r s.contrast p sr = 0) ∧
    (∀ (p : Point) (sr : ℝ), 0 < p.2.2 →
      spotDeficit s.u1 s.u2 s.r s.contrast p sr =
        -(Real.pi * sr ^ 2 *
            Real.sqrt (1 - (Real.sqrt (p.1 ^ 2 + p.2.1 ^ 2) / s.r) ^ 2)) *
          limb_darkening_normed s.u1 s.u2 (Real.sqrt (p.1 ^ 2 + p.2.1 ^ 2)) *
          (1 - s.contrast)) ∧
    (∀ (u1 u2 r rt P c t0 : ℝ) (times : List ℝ),
      ((Star.init [] u1 u2 r rt P c).flux times t0).1 =
        times.map fun _ => (Star.init [] u1 u2 r rt P c).unspotted_flux) := by
  refine ⟨?_, ?_, ?_, ?_⟩
  · intro h
    rw [Star.instantaneous_flux, List.sum_eq_zero, add_zero]
    intro x hx
    obtain ⟨pr, hpr, rfl⟩ := List.mem_map.mp hx
    exact if_neg (not_lt.mpr (h pr hpr))
  · intro p sr h
    exact if_neg (not_lt.mpr h)
  · intro p sr h
    exact if_pos h
  · intro u1 u2 r rt P c t0 times
    rw [Star.flux_fst]
    apply List.map_congr_left
    intro t _
    simp [Star.instantaneous_flux, Star.rotate, Star.init]

/-- C4 witness: a single spot on the far side (`z = -1`) leaves the
instantaneous flux at exactly the unspotted baseline. -/
theorem C4_witness :
    (Star.init [Spot.ofXYZ 0 0 (-1) (1/10)] (1/2) (1/10) 1 (1/10) 25
        (7/10)).instantaneous_flux =
      (Star.init [Spot.ofXYZ 0 0 (-1) (1/10)] (1/2) (1/10) 1 (1/10) 25
        (7/10)).unspotted_flux :=
  (C4_far_side_contributes_nothing _).1 (by
    intro pr hpr
    simp only [Star.init, Spot.ofXYZ, List.map_cons, List.map_nil,
      List.zip_cons_cons, List.zip_nil_right, List.mem_singleton] at hpr
    rw [hpr]
    norm_num)

/-- C8: `radius_threshold` has no observable effect — two stars identical
except for it agree on instantaneous flux, the flux series, rotation and
derotation results, both limb-darkening functions, and the unspotted
baseline. -/
theorem C8_radius_threshold_noop (spots : List Spot)
    (u1 u2 r P c rt1 rt2 θ t0 x : ℝ) (times : List ℝ) :
    (Star.init spots u1 u2 r rt1 P c).instantaneous_flux =
      (Star.init spots u1 u2 r rt2 P c).instantaneous_flux ∧
    ((Star.init spots u1 u2 r rt1 P c).flux times t0).1 =
      ((Star.init spots u1 u2 r rt2 P c).flux times t0).1 ∧
    ((Star.init spots u1 u2 r rt1 P c).rotate θ).spots_cartesian =
      ((Star.init spots u1 u2 r rt2 P c).rotate θ).spots_cartesian ∧
    ((Star.init spots u1 u2 r rt1 P c).rotate θ).rotations_applied =
      ((Star.init spots u1 u2 r rt2 P c).rotate θ).rotations_applied ∧
    (Star.init spots u1 u2 r rt1 P c).derotate.spots_cartesian =
      (Star.init spots u1 u2 r rt2 P c).derotate.spots_cartesian ∧
    (Star.init spots u1 u2 r rt1 P c).derotate.rotations_applied =
      (Star.init spots u1 u2 r rt2 P c).derotate.rotations_applied ∧
    (Star.init spots u1 u2 r rt1 P c).limb_darkening x =
      (Star.init spots u1 u2 r rt2 P c).limb_darkening x ∧
    (Star.init spots u1 u2 r rt1 P c).limb_darkening_normed x =
      (Star.init spots u1 u2 r rt2 P c).limb_darkening_normed x ∧
    (Star.init spots u1 u2 r rt1 P c).unspotted_flux =
      (Star.init spots u1 u2 r rt2 P c).unspotted_flux := by
  refine ⟨rfl, ?_, rfl, rfl, rfl, rfl, rfl, rfl, rfl⟩
  rw [Star.flux_fst, Star.flux_fst]
  exact List.map_congr_left fun t _ => rfl

/-- C7 counterexample: the explicit-Cartesian path with `z` given performs
no check, so `Spot(x=0, y=0, z=2, r=0.1)` on the unit star does not lie on
the sphere, refuting the claim for the path with `z` given. -/
theorem C7_counterexample :
    ¬ ((Spot.ofXYZ 0 0 2 (1/10)).x ^ 2 + (Spot.ofXYZ 0 0 2 (1/10)).y ^ 2 +
        (Spot.ofXYZ 0 0 2 (1/10)).z ^ 2 = 1 ^ 2) := by
  simp only [Spot.ofXYZ]
  norm_num

/-- C7 amended: a Spot constructed with `z` omitted and `x^2 + y^2 ≤ R^2`
lies on the sphere of radius `R`, and the latitude/longitude and
sunspot-sample paths produce spots on the unit sphere; the explicit-`z`
path stores the given coordinates unchecked. -/
theorem C7_on_sphere_amended :
    (∀ (x y r R : ℝ) (sp : Spot), x ^ 2 + y ^ 2 ≤ R ^ 2 →
      Spot.ofXY x y r R = some sp →
      sp.x ^ 2 + sp.y ^ 2 + sp.z ^ 2 = R ^ 2) ∧
    (∀ lat lon r : ℝ,
      (Spot.from_latlon lat lon r).x ^ 2 + (Spot.from_latlon lat lon r).y ^ 2 +
        (Spot.from_latlon lat lon r).z ^ 2 = 1) ∧
    (∀ lat lon r m : ℝ,
      (Spot.from_sunspot_sample lat lon r m).x ^ 2 +
        (Spot.from_sunspot_sample lat lon r m).y ^ 2 +
        (Spot.from_sunspot_sample lat lon r m).z ^ 2 = 1) := by
  refine ⟨?_, ?_, ?_⟩
  · intro x y r R sp hdom hsp
    rw [Spot.ofXY, np_sqrt, if_neg (by linarith)] at hsp
    simp only [Option.map_some', Option.some.injEq] at hsp
    subst hsp
    show x ^ 2 + y ^ 2 + Real.sqrt (R ^ 2 - x ^ 2 - y ^ 2) ^ 2 = R ^ 2
    rw [Real.sq_sqrt (by linarith)]
    ring
  · intro lat lon r
    exact latlon_sq_norm lat lon (Real.pi / 2)
  · intro lat lon r m
    exact latlon_sq_norm lat lon (Real.pi / 2)

/-- C7 witness: the spot at disk center with derived `z` lies on the unit
sphere. -/
theorem C7_witness :
    (Spot.mk 0 0 1 (1/10)).x ^ 2 + (Spot.mk 0 0 1 (1/10)).y ^ 2 +
      (Spot.mk 0 0 1 (1/10)).z ^ 2 = 1 ^ 2 :=
  C7_on_sphere_amended.1 0 0 (1/10) 1 ⟨0, 0, 1, 1/10⟩ (by norm_num) (by
    rw [Spot.ofXY, np_sqrt, if_neg (by norm_num)]
    norm_num [Real.sqrt_one])

/-- C1: for the star with `u1 = 0.4987`, `u2 = 0.1772`, `r = 1`,
`contrast = 0.7`, rotation period 25, and the single spot built from
`x = 0, y = 0, r = 0.1` with derived `z`, `flux(times=[0], t0=0)` is the
one-element sequence `[unspotted_flux - π (0.1)^2 I_norm(0) · 0.3]`
exactly: no foreshortening at disk center. -/
theorem C1_example_flux :
    ∃ sp : Spot, Spot.ofXY 0 0 0.1 1 = some sp ∧
      ((Star.init [sp] 0.4987 0.1772 1 0.1 25 0.7).flux [0] 0).1 =
        [(Star.init [sp] 0.4987 0.1772 1 0.1 25 0.7).unspotted_flux -
          Real.pi * 0.1 ^ 2 * limb_darkening_normed 0.4987 0.1772 0 * 0.3] := by
  refine ⟨⟨0, 0, 1, 0.1⟩, ?_, ?_⟩
  · rw [Spot.ofXY, np_sqrt, if_neg (by norm_num)]
    norm_num [Real.sqrt_one]
  · rw [Star.flux_fst]
    simp only [List.map_cons, List.map_nil, rotationalPhase_self,
      Star.rotate_zero, List.cons.injEq, and_true]
    simp only [Star.instantaneous_flux, Star.init, spotDeficit,
      List.map_cons, List.map_nil, List.zip_cons_cons, List.zip_nil_right,
      List.sum_cons, List.sum_nil, zero_lt_one, if_true]
    norm_num [Real.sqrt_zero, Real.sqrt_one]
    ring

/-- C3 (amended): for every Star whose rotation accumulator is zero on
entry — as after construction or after any `flux` call — `flux(times, t0)`
returns the Star to exactly its entry state, so calling it twice in
succession returns identical result sequences, and the result is
independent of how many `flux` calls preceded it. -/
theorem C3_flux_idempotent (s : Star) (times : List ℝ) (t0 : ℝ)
    (h : s.rotations_applied = 0) :
    (s.flux times t0).2 = s ∧
    ((s.flux times t0).2.flux times t0).1 = (s.flux times t0).1 := by
  have h2 := Star.flux_snd_of_zero s times t0 h
  exact ⟨h2, by rw [h2]⟩

/-- C3 witness: a freshly constructed star, `flux([1], 0)` twice. -/
theorem C3_witness :
    ((Star.init [] 0.4987 0.1772 1 0.1 25 0.7).flux [1] 0).2 =
      Star.init [] 0.4987 0.1772 1 0.1 25 0.7 ∧
    (((Star.init [] 0.4987 0.1772 1 0.1 25 0.7).flux [1] 0).2.flux [1] 0).1 =
      ((Star.init [] 0.4987 0.1772 1 0.1 25 0.7).flux [1] 0).1 :=
  C3_flux_idempotent (Star.init [] 0.4987 0.1772 1 0.1 25 0.7) [1] 0 rfl

/-- C3 counterexample: on a Star manually rotated by 90 degrees after
construction, two successive `flux([0], 0)` calls disagree — the first
call sees the spot on the limb, then its closing derotation rewinds the
manual rotation too, so the second call sees the spot at disk center. -/
theorem C3_counterexample :
    ¬ (((((Star.init [Spot.mk 0 0 1 0.1] 0.4987 0.1772 1 0.1 25 0.7).rotate
            (Real.pi / 2)).flux [0] 0).2.flux [0] 0).1 =
        (((Star.init [Spot.mk 0 0 1 0.1] 0.4987 0.1772 1 0.1 25 0.7).rotate
            (Real.pi / 2)).flux [0] 0).1) := by
  intro h
  simp only [Star.flux_fst, rotationalPhase_self, Star.rotate_zero,
    List.map_cons, List.map_nil, List.cons.injEq, and_true] at h
  rw [Star.flux_snd] at h
  simp only [Star.instantaneous_flux, Star.rotate, Star.init, List.map_cons,
    List.map_nil, map_rotYmat_map, zero_add, neg_add_cancel, map_rotYmat_zero,
    List.zip_cons_cons, List.zip_nil_right, List.sum_cons, List.sum_nil] at h
  simp only [rotYmat, Real.cos_pi_div_two, Real.sin_pi_div_two, mul_zero,
    zero_mul, mul_one, one_mul, zero_sub, add_zero, zero_add, spotDeficit,
    lt_self_iff_false, if_false, zero_lt_one, if_true] at h
  simp only [Real.sin_neg, Real.cos_neg, Real.cos_pi_div_two,
    Real.sin_pi_div_two] at h
  norm_num [Real.sqrt_zero, Real.sqrt_one] at h
  rcases h with h | h
  · exact Real.pi_ne_zero h
  · rw [limb_darkening_normed_zero (4987 / 10000) (443 / 2500)
      (by norm_num)] at h
    exact one_ne_zero h

end Libra
